import Mathlib

/-!
Verification of the repository-synchronization core of `hooks/session-start.py`
(the `uni` session-start hook).

The hook's core, `initialize_repository`, drives `git` through a fixed set of
subprocess invocations (`remote get-url`, `fetch`, `rev-parse`, `show-ref`,
`checkout`, `merge --ff-only`, `clone`, `remote add`).  We embed it shallowly:
the external git client is an abstract state-transition model (`GitModel`),
with one field per distinct git invocation the Python code issues — queries
return a `GitResult` (success flag plus trimmed output, exactly the shape of
`run_git_command`), mutating commands are state transitions paired with a
success flag.  `initialize_repository` itself is translated line by line from
the Python source over that model; commit ids are an abstract type `α`
compared only for equality, as the Python compares sha strings only with
`==`/`!=`.

A concrete executable instance (`GitRepo` / `gitRepoModel`) models an on-disk
clone the way git behaves (branches as an association list, remote-tracking
refs refreshed by `fetch`, `merge --ff-only` moving the current branch to the
upstream tip exactly when the recorded merge base equals HEAD); it provides
concrete witnesses and carries the idempotence proof.
-/

/-- Result of one git invocation as returned by `run_git_command`:
a success flag and the trimmed output.  The output type is abstract for
commit ids (`rev-parse`, `merge-base`), since the source only compares
them for equality. -/
structure GitResult (α : Type) where
  success : Bool
  output : α
deriving DecidableEq, Repr

/-- Abstract model of the git command-line client, one field per git
invocation issued by `initialize_repository` in `hooks/session-start.py`.
`σ` is the state of the on-disk clone, `α` the type of commit identifiers.
Queries are pure; mutating commands (`fetch`, `checkout`, `checkout -b`,
`merge --ff-only`, `clone`, `remote add`) are transitions, each paired with
the success flag the subprocess reports (the transition is applied whether
or not the command reports success, as the subprocess did run; a failed
command's transition can be the identity in an instance). -/
structure GitModel (σ : Type) (α : Type) where
  /-- `(repo_dir / ".git").exists()` -/
  gitDirExists : σ → Bool
  /-- success of `git remote get-url upstream` -/
  remoteGetUrlUpstreamOk : σ → Bool
  /-- `git fetch <remote>` (result discarded by the source) -/
  fetch : String → σ → σ
  /-- `git rev-parse --abbrev-ref HEAD` -/
  currentBranch : σ → GitResult String
  /-- success of `git show-ref --verify --quiet refs/heads/<branch>` -/
  showRefHeads : String → σ → Bool
  /-- success of `git show-ref --verify --quiet refs/remotes/<remote>/<branch>` -/
  showRefRemotes : String → String → σ → Bool
  /-- `git checkout <branch>` -/
  checkout : String → σ → σ
  /-- success of `git checkout <branch>` -/
  checkoutOk : String → σ → Bool
  /-- `git checkout -b <branch> <remote>/<branch>` -/
  checkoutTrack : String → String → σ → σ
  /-- success of `git checkout -b <branch> <remote>/<branch>` -/
  checkoutTrackOk : String → String → σ → Bool
  /-- `git rev-parse @` -/
  revParseHead : σ → GitResult α
  /-- `git rev-parse @{u}` (written `rev-parse @ {u}` as a subprocess arg) -/
  revParseUpstream : σ → GitResult α
  /-- `git merge-base @ @{u}` -/
  mergeBase : σ → GitResult α
  /-- `git merge --ff-only @{u}` -/
  mergeFF : σ → σ
  /-- success of `git merge --ff-only @{u}` -/
  mergeFFOk : σ → Bool
  /-- `git clone <url> <dir>` -/
  clone : String → σ → σ
  /-- success of `git clone <url> <dir>` -/
  cloneOk : String → σ → Bool
  /-- captured output of `git clone <url> <dir>` (used in the failure message) -/
  cloneOutput : String → σ → String
  /-- `git remote add <name> <url>` (result discarded by the source) -/
  remoteAdd : String → String → σ → σ

/-- One entry of `SKILL_REPOS` after the branch has been filled in from the
config: `{name, url, branch}`. -/
structure RepositorySpec where
  name : String
  url : String
  branch : String
deriving DecidableEq, Repr

/-- The value of `initialize_repository` — the Python tuple
`(updated, behind, messages)` — together with the final state of the
on-disk clone (implicit in Python, threaded explicitly here). -/
structure SyncOutcome (σ : Type) where
  state : σ
  updated : Bool
  behind : Bool
  messages : List String
deriving DecidableEq, Repr

/-- `DEFAULT_BRANCH = "main"` from the source. -/
def DEFAULT_BRANCH : String := "main"

/- The message strings of `initialize_repository`, verbatim from the
Python f-strings. -/

def fetchingMsg (repoName : String) : String :=
  s!"Fetching latest changes for {repoName}..."

def switchingMsg (repoName currentBranch branch : String) : String :=
  s!"Switching {repoName} from \x27{currentBranch}\x27 to \x27{branch}\x27..."

def creatingBranchMsg (branch remoteName : String) : String :=
  s!"Creating local branch \x27{branch}\x27 tracking {remoteName}/{branch}..."

def branchNotFoundMsg (branch repoName : String) : String :=
  s!"Warning: Branch {branch} not found for {repoName}"

def updatingMsg (repoName : String) : String :=
  s!"Updating {repoName} repository to latest version..."

def updatedOkMsg (repoName : String) : String :=
  s!"✓ {repoName} repository updated successfully"

def updateFailedMsg (repoName : String) : String :=
  s!"Failed to update {repoName} repository"

def initializingMsg (repoName : String) : String :=
  s!"Initializing {repoName} repository..."

def initializedMsg (repoName repoDir : String) : String :=
  s!"{repoName} repository initialized at {repoDir}"

def cloneFailedMsg (repoName output : String) : String :=
  s!"Failed to clone {repoName}: {output}"

/-- `remote_name = 'upstream' if success else 'origin'` where `success` is
the exit status of `git remote get-url upstream` (source lines 147–148). -/
def resolveRemoteName {σ α : Type} (M : GitModel σ α) (s : σ) : String :=
  if M.remoteGetUrlUpstreamOk s then "upstream" else "origin"

/-- The branch-switching block of `initialize_repository` (source lines
160–191): if the current branch is readable and differs from the desired
branch, check out an existing local branch, else create one tracking the
remote branch, else record a warning.  Returns the clone state and the
messages appended by the block. -/
def switchBranch {σ α : Type} (M : GitModel σ α)
    (repoName branch remoteName : String) (s : σ) : σ × List String :=
  let rc := M.currentBranch s
  if rc.success && rc.output != branch then
    let switching := switchingMsg repoName rc.output branch
    if M.showRefHeads branch s then
      (M.checkout branch s, [switching])
    else if M.showRefRemotes remoteName branch s then
      (M.checkoutTrack branch remoteName s,
        [switching, creatingBranchMsg branch remoteName])
    else
      (s, [switching, branchNotFoundMsg branch repoName])
  else
    (s, [])

/-- The fast-forward evaluation block of `initialize_repository` (source
lines 193–210): resolve `@`, `@{u}` and their merge base; when both resolve
and differ, fast-forward if HEAD equals the merge base, otherwise report
behind.  Returns `(state, updated, behind, messages)`. -/
def ffEvaluate {σ α : Type} [DecidableEq α] (M : GitModel σ α)
    (repoName : String) (s : σ) : SyncOutcome σ :=
  let rl := M.revParseHead s
  let ru := M.revParseUpstream s
  let rb := M.mergeBase s
  if rl.success && ru.success && rl.output ≠ ru.output then
    if rb.success && rl.output = rb.output then
      let ok := M.mergeFFOk s
      let s2 := M.mergeFF s
      if ok then
        ⟨s2, true, false, [updatingMsg repoName, updatedOkMsg repoName]⟩
      else
        ⟨s2, false, false, [updatingMsg repoName, updateFailedMsg repoName]⟩
    else
      ⟨s, false, true, []⟩
  else
    ⟨s, false, false, []⟩

/-- The update path of `initialize_repository` (repository exists): fetch
from the resolved remote, reconcile the branch, then evaluate the
fast-forward. -/
def updatePath {σ α : Type} [DecidableEq α] (M : GitModel σ α)
    (spec : RepositorySpec) (s : σ) : SyncOutcome σ :=
  let remoteName := resolveRemoteName M s
  let s1 := M.fetch remoteName s
  let sw := switchBranch M spec.name spec.branch remoteName s1
  let ev := ffEvaluate M spec.name sw.1
  ⟨ev.state, ev.updated, ev.behind,
    fetchingMsg spec.name :: (sw.2 ++ ev.messages)⟩

/-- The clone state after the post-clone branch checkout of the clone path
(source lines 219–228): the fresh clone, with the desired branch checked
out when the clone's branch is readable and differs. -/
def cloneMidState {σ α : Type} (M : GitModel σ α)
    (spec : RepositorySpec) (s : σ) : σ :=
  let s1 := M.clone spec.url s
  let rc := M.currentBranch s1
  if rc.success && rc.output != spec.branch then M.checkout spec.branch s1
  else s1

/-- The clone path of `initialize_repository` (repository absent, source
lines 212–236): clone; on success, check out the desired branch when the
fresh clone's branch differs, and for the repository named "core" register
an "upstream" remote at the same URL. -/
def clonePath {σ α : Type} (M : GitModel σ α)
    (spec : RepositorySpec) (uniRoot : String) (s : σ) : SyncOutcome σ :=
  let ok := M.cloneOk spec.url s
  let out := M.cloneOutput spec.url s
  let s1 := M.clone spec.url s
  if ok then
    let s2 := cloneMidState M spec s
    let s3 := if spec.name == "core"
              then M.remoteAdd "upstream" spec.url s2 else s2
    ⟨s3, false, false,
      [initializingMsg spec.name,
       initializedMsg spec.name (uniRoot ++ "/" ++ spec.name)]⟩
  else
    ⟨s1, false, false,
      [initializingMsg spec.name, cloneFailedMsg spec.name out]⟩

/-- `initialize_repository(repo, uni_root)` from `hooks/session-start.py`:
update an existing clone (fetch, branch reconciliation, fast-forward
evaluation) or create a fresh one, returning `(updated, behind, messages)`
plus the final clone state. -/
def initialize_repository {σ α : Type} [DecidableEq α] (M : GitModel σ α)
    (spec : RepositorySpec) (uniRoot : String) (s : σ) : SyncOutcome σ :=
  if M.gitDirExists s then updatePath M spec s
  else clonePath M spec uniRoot s

/-- The state of the clone just before the fast-forward evaluation block:
after the fetch and the branch-switching block of the update path. -/
def preEvalState {σ α : Type} (M : GitModel σ α)
    (spec : RepositorySpec) (s : σ) : σ :=
  (switchBranch M spec.name spec.branch (resolveRemoteName M s)
    (M.fetch (resolveRemoteName M s) s)).1

/-! ## A concrete git-repository model

An executable instance of `GitModel`, modelling the version-control
interface of the design (clone, fetch, remote-tracking refs, branch
checkout, fast-forward merge) with commits as natural numbers.  Local
branches and refs are association lists; `fetch` refreshes the
remote-tracking refs from the remote's branches; `merge --ff-only`
moves the current branch's head to the upstream tip exactly when the
recorded merge base of (HEAD, upstream) is HEAD itself, which is git's
fast-forward condition.  Merge-base answers are carried as a finite
table in the state, standing for the commit graph. -/

/-- Association-list lookup by key (first match wins). -/
def assoc {α β : Type} [DecidableEq α] : List (α × β) → α → Option β
  | [], _ => none
  | (k, v) :: t, a => if k = a then some v else assoc t a

/-- Concrete state of one on-disk clone together with its remote.
`remoteBranches` is the branch map of the actual remote repository (never
mutated by the hook); `remoteRefs` are the local remote-tracking refs,
refreshed from `remoteBranches` by `fetch`.  `mergeBases` records the
merge base of each pair of commits (`none` inside the table = no common
ancestor). -/
structure GitRepo where
  gitDirExists : Bool
  localBranches : List (String × Nat)
  currentBranch : Option String
  remoteRefs : List (String × Nat)
  remoteBranches : List (String × Nat)
  remoteHead : String
  hasUpstream : Bool
  mergeBases : List ((Nat × Nat) × Option Nat)
deriving DecidableEq, Repr

/-- Commit at HEAD: the current branch's tip. -/
def headC (r : GitRepo) : Option Nat :=
  r.currentBranch.bind fun b => assoc r.localBranches b

/-- Commit at `@{u}`: the remote-tracking ref of the current branch. -/
def upC (r : GitRepo) : Option Nat :=
  r.currentBranch.bind fun b => assoc r.remoteRefs b

/-- Merge base of HEAD and `@{u}` according to the state's table. -/
def mbC (r : GitRepo) : Option Nat :=
  match headC r, upC r with
  | some h, some u => (assoc r.mergeBases (h, u)).bind id
  | _, _ => none

/-- `git fetch`: refresh the remote-tracking refs from the remote. -/
def fetchR (r : GitRepo) : GitRepo :=
  { r with remoteRefs := r.remoteBranches }

/-- `git checkout <b>`: switch to a local branch when it exists. -/
def checkoutR (b : String) (r : GitRepo) : GitRepo :=
  if (assoc r.localBranches b).isSome then { r with currentBranch := some b }
  else r

/-- `git checkout -b <b> <remote>/<b>`: create a local branch at the
remote-tracking ref and switch to it. -/
def checkoutTrackR (b : String) (r : GitRepo) : GitRepo :=
  match assoc r.remoteRefs b with
  | some c =>
      { r with
        localBranches := (b, c) :: r.localBranches
        currentBranch := some b }
  | none => r

/-- Set the head of branch `b` to commit `u` (all entries with that key). -/
def setHead (b : String) (u : Nat) (l : List (String × Nat)) :
    List (String × Nat) :=
  l.map fun p => if p.1 = b then (p.1, u) else p

/-- Whether `git merge --ff-only @{u}` succeeds: HEAD and upstream
resolve and the merge base of (HEAD, upstream) is HEAD. -/
def mergeFFOkR (r : GitRepo) : Bool :=
  match headC r, upC r, mbC r with
  | some h, some _, some m => m = h
  | _, _, _ => false

/-- `git merge --ff-only @{u}`: on success move the current branch's head
to the upstream tip; otherwise leave the state unchanged. -/
def mergeFFR (r : GitRepo) : GitRepo :=
  if mergeFFOkR r then
    match r.currentBranch, upC r with
    | some b, some u => { r with localBranches := setHead b u r.localBranches }
    | _, _ => r
  else r

/-- `git clone <url>`: create the clone when the remote's default branch
resolves — one local branch at the remote's default tip, remote-tracking
refs copied from the remote, only the "origin" remote configured. -/
def cloneR (r : GitRepo) : GitRepo :=
  match assoc r.remoteBranches r.remoteHead with
  | some tip =>
      { r with gitDirExists := true,
               localBranches := [(r.remoteHead, tip)],
               currentBranch := some r.remoteHead,
               remoteRefs := r.remoteBranches,
               hasUpstream := false }
  | none => r

/-- Whether `git clone` succeeds in the concrete model. -/
def cloneOkR (r : GitRepo) : Bool :=
  (assoc r.remoteBranches r.remoteHead).isSome

/-- `git remote add <name> <url>`: record an "upstream" remote. -/
def remoteAddR (name : String) (r : GitRepo) : GitRepo :=
  if name = "upstream" then { r with hasUpstream := true } else r

/-- The concrete git client over `GitRepo` states, with commit ids as
natural numbers.  Queries read the state; a query that cannot resolve
reports failure with output `0` (resp. `""`), matching a non-zero git
exit with the success flag guarding any use of the output. -/
def gitRepoModel : GitModel GitRepo Nat where
  gitDirExists r := r.gitDirExists
  remoteGetUrlUpstreamOk r := r.hasUpstream
  fetch _ r := fetchR r
  currentBranch r :=
    match r.currentBranch with
    | some b => ⟨true, b⟩
    | none => ⟨false, ""⟩
  showRefHeads b r := (assoc r.localBranches b).isSome
  showRefRemotes _ b r := (assoc r.remoteRefs b).isSome
  checkout b r := checkoutR b r
  checkoutOk b r := (assoc r.localBranches b).isSome
  checkoutTrack b _ r := checkoutTrackR b r
  checkoutTrackOk b _ r := (assoc r.remoteRefs b).isSome
  revParseHead r :=
    match headC r with
    | some c => ⟨true, c⟩
    | none => ⟨false, 0⟩
  revParseUpstream r :=
    match upC r with
    | some c => ⟨true, c⟩
    | none => ⟨false, 0⟩
  mergeBase r :=
    match mbC r with
    | some c => ⟨true, c⟩
    | none => ⟨false, 0⟩
  mergeFF r := mergeFFR r
  mergeFFOk r := mergeFFOkR r
  clone _ r := cloneR r
  cloneOk _ r := cloneOkR r
  cloneOutput _ _ := ""
  remoteAdd name _ r := remoteAddR name r

/-! ## The configuration loader

`get_skills_branch` from the source, over an abstract state of the config
file: absent, unreadable (an `IOError`/`JSONDecodeError` was raised while
opening or parsing), or parsed with an optional `skillsBranch` string
field.  The function returns the resolved branch together with the
diagnostics printed to the error stream. -/

/-- Observable state of `.uni/config.json` as `get_skills_branch` sees it. -/
inductive ConfigState where
  | absent
  | unreadable (errText : String)
  | parsed (skillsBranch : Option String)
deriving DecidableEq, Repr

/-- `get_skills_branch()` from `hooks/session-start.py` (lines 55–69):
return the config's `skillsBranch` when present and truthy (non-empty),
else `DEFAULT_BRANCH`; an open/parse failure prints a warning to stderr.
Returns `(branch, stderr diagnostics)`. -/
def get_skills_branch (c : ConfigState) : String × List String :=
  match c with
  | .absent => (DEFAULT_BRANCH, [])
  | .unreadable e =>
      (DEFAULT_BRANCH, [s!"Warning: Could not read config file: {e}"])
  | .parsed b =>
      match b with
      | some br => if br ≠ "" then (br, []) else (DEFAULT_BRANCH, [])
      | none => (DEFAULT_BRANCH, [])

/-! ## Theorems -/

/-- Decomposition of the update path: for an existing repository,
`initialize_repository` is the fast-forward evaluation run on the state
after fetch and branch reconciliation (`preEvalState`), with the fetch
and switch messages prepended. -/
theorem initialize_repository_update {σ α : Type} [DecidableEq α]
    (M : GitModel σ α) (spec : RepositorySpec) (uniRoot : String) (s : σ)
    (hex : M.gitDirExists s = true) :
    initialize_repository M spec uniRoot s =
      ⟨(ffEvaluate M spec.name (preEvalState M spec s)).state,
       (ffEvaluate M spec.name (preEvalState M spec s)).updated,
       (ffEvaluate M spec.name (preEvalState M spec s)).behind,
       fetchingMsg spec.name ::
         ((switchBranch M spec.name spec.branch (resolveRemoteName M s)
             (M.fetch (resolveRemoteName M s) s)).2 ++
          (ffEvaluate M spec.name (preEvalState M spec s)).messages)⟩ := by
  simp [initialize_repository, hex, updatePath, preEvalState]

/-- The fast-forward evaluation never reports both `updated` and
`behind`. -/
theorem ffEvaluate_not_both {σ α : Type} [DecidableEq α]
    (M : GitModel σ α) (repoName : String) (s : σ) :
    ((ffEvaluate M repoName s).updated && (ffEvaluate M repoName s).behind)
      = false := by
  simp only [ffEvaluate]
  split_ifs <;> rfl

/-- Claim C1: for every repository processed in a run, the outcome
booleans `updated` and `behind` returned by `initialize_repository` are
never both true — the fast-forward branch can set only `updated`, the
divergence branch only `behind`. -/
theorem initialize_repository_not_both_updated_behind
    {σ α : Type} [DecidableEq α] (M : GitModel σ α)
    (spec : RepositorySpec) (uniRoot : String) (s : σ) :
    ¬ ((initialize_repository M spec uniRoot s).updated = true ∧
       (initialize_repository M spec uniRoot s).behind = true) := by
  by_cases hex : M.gitDirExists s = true
  · intro h
    have h2 := ffEvaluate_not_both M spec.name (preEvalState M spec s)
    rw [initialize_repository_update M spec uniRoot s hex] at h
    simp only [] at h
    rw [h.1, h.2] at h2
    simp at h2
  · intro h
    have h1 := h.1
    simp only [initialize_repository, clonePath] at h1
    rw [if_neg hex] at h1
    split_ifs at h1

/-- Claim C3: for an existing repository whose resolved local HEAD equals
the resolved tracked upstream commit (at evaluation time, i.e. after fetch
and branch reconciliation), the run performs no fast-forward merge (the
clone state is exactly the pre-evaluation state), appends no update
message, and returns `updated = false` and `behind = false`. -/
theorem up_to_date_is_noop {σ α : Type} [DecidableEq α] (M : GitModel σ α)
    (spec : RepositorySpec) (uniRoot : String) (s : σ)
    (hex : M.gitDirExists s = true)
    (hl : (M.revParseHead (preEvalState M spec s)).success = true)
    (hu : (M.revParseUpstream (preEvalState M spec s)).success = true)
    (heq : (M.revParseHead (preEvalState M spec s)).output
         = (M.revParseUpstream (preEvalState M spec s)).output) :
    (initialize_repository M spec uniRoot s).state = preEvalState M spec s ∧
    (initialize_repository M spec uniRoot s).updated = false ∧
    (initialize_repository M spec uniRoot s).behind = false ∧
    (initialize_repository M spec uniRoot s).messages =
      fetchingMsg spec.name ::
        (switchBranch M spec.name spec.branch (resolveRemoteName M s)
          (M.fetch (resolveRemoteName M s) s)).2 := by
  rw [initialize_repository_update M spec uniRoot s hex]
  have hev : ffEvaluate M spec.name (preEvalState M spec s)
      = ⟨preEvalState M spec s, false, false, []⟩ := by
    simp [ffEvaluate, heq]
  rw [hev]
  simp

/-- Claim C6: for an existing repository where local HEAD or the tracked
upstream ref cannot be resolved, the fast-forward evaluation is skipped
entirely: no merge is attempted, no evaluation message is appended, and
`updated = false`, `behind = false`. -/
theorem unresolved_refs_skip_evaluation {σ α : Type} [DecidableEq α]
    (M : GitModel σ α) (spec : RepositorySpec) (uniRoot : String) (s : σ)
    (hex : M.gitDirExists s = true)
    (hfail : (M.revParseHead (preEvalState M spec s)).success = false ∨
             (M.revParseUpstream (preEvalState M spec s)).success = false) :
    (initialize_repository M spec uniRoot s).state = preEvalState M spec s ∧
    (initialize_repository M spec uniRoot s).updated = false ∧
    (initialize_repository M spec uniRoot s).behind = false ∧
    (initialize_repository M spec uniRoot s).messages =
      fetchingMsg spec.name ::
        (switchBranch M spec.name spec.branch (resolveRemoteName M s)
          (M.fetch (resolveRemoteName M s) s)).2 := by
  rw [initialize_repository_update M spec uniRoot s hex]
  have hev : ffEvaluate M spec.name (preEvalState M spec s)
      = ⟨preEvalState M spec s, false, false, []⟩ := by
    rcases hfail with h | h <;> simp [ffEvaluate, h]
  rw [hev]
  simp

/-- Claim C4: for an existing repository where local HEAD is a strict
ancestor of the tracked upstream ref (HEAD equals the merge base and
differs from upstream, at evaluation time), the run performs
`merge --ff-only` (the final state is the merged state); if the merge
succeeds then local HEAD equals the upstream ref, `updated = true` and the
transcript contains the "updated successfully" message; if it fails, the
failure message is recorded and `updated = false`.  The hypothesis `hlaw`
is git's fast-forward contract: a successful `merge --ff-only @{u}` moves
HEAD to the upstream ref. -/
theorem fast_forward_updates {σ α : Type} [DecidableEq α]
    (M : GitModel σ α) (spec : RepositorySpec) (uniRoot : String) (s : σ)
    (hex : M.gitDirExists s = true)
    (hl : (M.revParseHead (preEvalState M spec s)).success = true)
    (hu : (M.revParseUpstream (preEvalState M spec s)).success = true)
    (hne : (M.revParseHead (preEvalState M spec s)).output
         ≠ (M.revParseUpstream (preEvalState M spec s)).output)
    (hb : (M.mergeBase (preEvalState M spec s)).success = true)
    (hbase : (M.revParseHead (preEvalState M spec s)).output
           = (M.mergeBase (preEvalState M spec s)).output)
    (hlaw : M.mergeFFOk (preEvalState M spec s) = true →
      (M.revParseHead (M.mergeFF (preEvalState M spec s))).output
        = (M.revParseUpstream (preEvalState M spec s)).output) :
    (initialize_repository M spec uniRoot s).state
        = M.mergeFF (preEvalState M spec s) ∧
    (M.mergeFFOk (preEvalState M spec s) = true →
      (initialize_repository M spec uniRoot s).updated = true ∧
      (M.revParseHead (initialize_repository M spec uniRoot s).state).output
        = (M.revParseUpstream (preEvalState M spec s)).output ∧
      updatedOkMsg spec.name
        ∈ (initialize_repository M spec uniRoot s).messages) ∧
    (M.mergeFFOk (preEvalState M spec s) = false →
      (initialize_repository M spec uniRoot s).updated = false ∧
      updateFailedMsg spec.name
        ∈ (initialize_repository M spec uniRoot s).messages) := by
  rw [initialize_repository_update M spec uniRoot s hex]
  have hne2 : (M.mergeBase (preEvalState M spec s)).output
      ≠ (M.revParseUpstream (preEvalState M spec s)).output := hbase ▸ hne
  by_cases hok : M.mergeFFOk (preEvalState M spec s) = true
  · have hev : ffEvaluate M spec.name (preEvalState M spec s)
        = ⟨M.mergeFF (preEvalState M spec s), true, false,
           [updatingMsg spec.name, updatedOkMsg spec.name]⟩ := by
      simp [ffEvaluate, hl, hu, hne, hb, hbase, hok, hne2]
    rw [hev]
    refine ⟨rfl, fun _ => ⟨rfl, hlaw hok, ?_⟩, fun hcon => ?_⟩
    · simp
    · rw [hok] at hcon; exact absurd hcon (by simp)
  · have hok' : M.mergeFFOk (preEvalState M spec s) = false := by
      simpa using hok
    have hev : ffEvaluate M spec.name (preEvalState M spec s)
        = ⟨M.mergeFF (preEvalState M spec s), false, false,
           [updatingMsg spec.name, updateFailedMsg spec.name]⟩ := by
      simp [ffEvaluate, hl, hu, hne, hb, hbase, hok', hne2]
    rw [hev]
    refine ⟨rfl, fun hcon => absurd hcon hok, fun _ => ⟨rfl, ?_⟩⟩
    simp

/-- Claim C5: for an existing repository whose histories have diverged at
evaluation time (the merge base resolves but differs from local HEAD, and
local differs from upstream), the run attempts no merge or rebase, leaves
the clone state (hence local HEAD) unchanged from the pre-evaluation
state, and returns `behind = true` with `updated = false`. -/
theorem diverged_reports_behind {σ α : Type} [DecidableEq α]
    (M : GitModel σ α) (spec : RepositorySpec) (uniRoot : String) (s : σ)
    (hex : M.gitDirExists s = true)
    (hl : (M.revParseHead (preEvalState M spec s)).success = true)
    (hu : (M.revParseUpstream (preEvalState M spec s)).success = true)
    (hne : (M.revParseHead (preEvalState M spec s)).output
         ≠ (M.revParseUpstream (preEvalState M spec s)).output)
    (hb : (M.mergeBase (preEvalState M spec s)).success = true)
    (hbne : (M.revParseHead (preEvalState M spec s)).output
          ≠ (M.mergeBase (preEvalState M spec s)).output) :
    (initialize_repository M spec uniRoot s).state = preEvalState M spec s ∧
    (initialize_repository M spec uniRoot s).updated = false ∧
    (initialize_repository M spec uniRoot s).behind = true ∧
    (initialize_repository M spec uniRoot s).messages =
      fetchingMsg spec.name ::
        (switchBranch M spec.name spec.branch (resolveRemoteName M s)
          (M.fetch (resolveRemoteName M s) s)).2 := by
  rw [initialize_repository_update M spec uniRoot s hex]
  have hev : ffEvaluate M spec.name (preEvalState M spec s)
      = ⟨preEvalState M spec s, false, true, []⟩ := by
    simp [ffEvaluate, hl, hu, hne, hb, hbne]
  rw [hev]
  simp

/-- Claim C10 (implicit): when local HEAD and the tracked upstream both
resolve and differ but the merge-base query fails, the run classifies the
repository as `behind = true` exactly as in the diverged case, appending
no evaluation message and leaving the state unchanged — `behind` does not
exclusively mean "histories diverged". -/
theorem merge_base_failure_reports_behind {σ α : Type} [DecidableEq α]
    (M : GitModel σ α) (spec : RepositorySpec) (uniRoot : String) (s : σ)
    (hex : M.gitDirExists s = true)
    (hl : (M.revParseHead (preEvalState M spec s)).success = true)
    (hu : (M.revParseUpstream (preEvalState M spec s)).success = true)
    (hne : (M.revParseHead (preEvalState M spec s)).output
         ≠ (M.revParseUpstream (preEvalState M spec s)).output)
    (hbf : (M.mergeBase (preEvalState M spec s)).success = false) :
    (initialize_repository M spec uniRoot s).state = preEvalState M spec s ∧
    (initialize_repository M spec uniRoot s).updated = false ∧
    (initialize_repository M spec uniRoot s).behind = true ∧
    (initialize_repository M spec uniRoot s).messages =
      fetchingMsg spec.name ::
        (switchBranch M spec.name spec.branch (resolveRemoteName M s)
          (M.fetch (resolveRemoteName M s) s)).2 := by
  rw [initialize_repository_update M spec uniRoot s hex]
  have hev : ffEvaluate M spec.name (preEvalState M spec s)
      = ⟨preEvalState M spec s, false, true, []⟩ := by
    simp [ffEvaluate, hl, hu, hne, hbf]
  rw [hev]
  simp

/-- Claim C7: the remote handle resolver returns "upstream" exactly when
the `remote get-url upstream` query succeeds, and "origin" exactly when it
does not; it is a total function, never an error. -/
theorem resolveRemoteName_upstream_or_origin {σ α : Type}
    (M : GitModel σ α) (s : σ) :
    (resolveRemoteName M s = "upstream"
        ↔ M.remoteGetUrlUpstreamOk s = true) ∧
    (resolveRemoteName M s = "origin"
        ↔ M.remoteGetUrlUpstreamOk s = false) := by
  unfold resolveRemoteName
  by_cases h : M.remoteGetUrlUpstreamOk s = true <;> simp [h]

/-! ## Concrete fixtures for the witnesses -/

/-- The "core" entry of `SKILL_REPOS` with the branch filled in from the
configuration (URL as in the source). -/
def coreSpec (b : String) : RepositorySpec :=
  ⟨"core", "https://github.com/tmoxon/uni-core-skills", b⟩

/-- An existing clone on "main", up to date with its remote. -/
def repoUpToDate : GitRepo :=
  ⟨true, [("main", 5)], some "main", [("main", 5)], [("main", 5)], "main",
    false, []⟩

/-- An existing clone on "main", strictly behind its remote
(commit 1 is an ancestor of commit 2, their merge base is 1). -/
def repoBehindFF : GitRepo :=
  ⟨true, [("main", 1)], some "main", [], [("main", 2)], "main", false,
    [((1, 2), some 1)]⟩

/-- An existing clone on "main" whose history has diverged from the
remote: merge base 1 differs from both tips 3 and 4. -/
def repoDiverged : GitRepo :=
  ⟨true, [("main", 3)], some "main", [], [("main", 4)], "main", false,
    [((3, 4), some 1)]⟩

/-- An existing clone on "main" with no tracking upstream ref. -/
def repoNoUpstream : GitRepo :=
  ⟨true, [("main", 3)], some "main", [], [], "main", false, []⟩

/-- An existing clone where HEAD and upstream resolve and differ but the
merge-base query fails (no recorded common ancestor). -/
def repoNoBase : GitRepo :=
  ⟨true, [("main", 3)], some "main", [], [("main", 4)], "main", false, []⟩

/-- Like `repoUpToDate` but with an "upstream" remote configured. -/
def repoWithUpstream : GitRepo :=
  ⟨true, [("main", 5)], some "main", [("main", 5)], [("main", 5)], "main",
    true, []⟩

/-! ## Witnesses -/

/-- Witness for claim C1 at a concrete repository state. -/
theorem initialize_repository_not_both_updated_behind_witness :
    ¬ ((initialize_repository gitRepoModel (coreSpec "main") "/u"
          repoBehindFF).updated = true ∧
       (initialize_repository gitRepoModel (coreSpec "main") "/u"
          repoBehindFF).behind = true) :=
  initialize_repository_not_both_updated_behind gitRepoModel
    (coreSpec "main") "/u" repoBehindFF

/-- Witness for claim C3: an up-to-date clone yields a no-op run. -/
theorem up_to_date_is_noop_witness :
    (gitRepoModel.revParseHead
        (preEvalState gitRepoModel (coreSpec "main") repoUpToDate)).output
      = (gitRepoModel.revParseUpstream
        (preEvalState gitRepoModel (coreSpec "main") repoUpToDate)).output ∧
    (initialize_repository gitRepoModel (coreSpec "main") "/u"
        repoUpToDate).updated = false ∧
    (initialize_repository gitRepoModel (coreSpec "main") "/u"
        repoUpToDate).behind = false :=
  ⟨by decide,
   (up_to_date_is_noop gitRepoModel (coreSpec "main") "/u" repoUpToDate
      (by decide) (by decide) (by decide) (by decide)).2.1,
   (up_to_date_is_noop gitRepoModel (coreSpec "main") "/u" repoUpToDate
      (by decide) (by decide) (by decide) (by decide)).2.2.1⟩

/-- Witness for claim C4: a strictly-behind clone is fast-forwarded, ends
at the upstream commit, and reports success. -/
theorem fast_forward_updates_witness :
    gitRepoModel.mergeFFOk
        (preEvalState gitRepoModel (coreSpec "main") repoBehindFF) = true ∧
    (initialize_repository gitRepoModel (coreSpec "main") "/u"
        repoBehindFF).updated = true ∧
    (gitRepoModel.revParseHead
        (initialize_repository gitRepoModel (coreSpec "main") "/u"
          repoBehindFF).state).output
      = (gitRepoModel.revParseUpstream
        (preEvalState gitRepoModel (coreSpec "main") repoBehindFF)).output ∧
    updatedOkMsg "core"
      ∈ (initialize_repository gitRepoModel (coreSpec "main") "/u"
          repoBehindFF).messages := by
  have h := fast_forward_updates gitRepoModel (coreSpec "main") "/u"
    repoBehindFF (by decide) (by decide) (by decide) (by decide) (by decide)
    (by decide) (fun _ => by decide)
  exact ⟨by decide, (h.2.1 (by decide)).1, (h.2.1 (by decide)).2.1,
    (h.2.1 (by decide)).2.2⟩

/-- Witness for claim C5: a diverged clone is reported behind and left
unchanged. -/
theorem diverged_reports_behind_witness :
    (gitRepoModel.revParseHead
        (preEvalState gitRepoModel (coreSpec "main") repoDiverged)).output
      ≠ (gitRepoModel.mergeBase
        (preEvalState gitRepoModel (coreSpec "main") repoDiverged)).output ∧
    (initialize_repository gitRepoModel (coreSpec "main") "/u"
        repoDiverged).state
      = preEvalState gitRepoModel (coreSpec "main") repoDiverged ∧
    (initialize_repository gitRepoModel (coreSpec "main") "/u"
        repoDiverged).behind = true ∧
    (initialize_repository gitRepoModel (coreSpec "main") "/u"
        repoDiverged).updated = false := by
  have h := diverged_reports_behind gitRepoModel (coreSpec "main") "/u"
    repoDiverged (by decide) (by decide) (by decide) (by decide) (by decide)
    (by decide)
  exact ⟨by decide, h.1, h.2.2.1, h.2.1⟩

/-- Witness for claim C6: a clone with no tracking upstream skips the
evaluation. -/
theorem unresolved_refs_skip_evaluation_witness :
    (gitRepoModel.revParseUpstream
        (preEvalState gitRepoModel (coreSpec "main") repoNoUpstream)).success
      = false ∧
    (initialize_repository gitRepoModel (coreSpec "main") "/u"
        repoNoUpstream).updated = false ∧
    (initialize_repository gitRepoModel (coreSpec "main") "/u"
        repoNoUpstream).behind = false := by
  have h := unresolved_refs_skip_evaluation gitRepoModel (coreSpec "main")
    "/u" repoNoUpstream (by decide) (Or.inr (by decide))
  exact ⟨by decide, h.2.1, h.2.2.1⟩

/-- Witness for claim C7: the resolver picks "upstream" when that remote
is configured and "origin" when it is not. -/
theorem resolveRemoteName_upstream_or_origin_witness :
    resolveRemoteName gitRepoModel repoWithUpstream = "upstream" ∧
    resolveRemoteName gitRepoModel repoUpToDate = "origin" :=
  ⟨(resolveRemoteName_upstream_or_origin gitRepoModel
      repoWithUpstream).1.mpr (by decide),
   (resolveRemoteName_upstream_or_origin gitRepoModel
      repoUpToDate).2.mpr (by decide)⟩

/-- Witness for claim C10: a failing merge-base query with differing
resolvable refs is classified as behind. -/
theorem merge_base_failure_reports_behind_witness :
    (gitRepoModel.mergeBase
        (preEvalState gitRepoModel (coreSpec "main") repoNoBase)).success
      = false ∧
    (initialize_repository gitRepoModel (coreSpec "main") "/u"
        repoNoBase).behind = true ∧
    (initialize_repository gitRepoModel (coreSpec "main") "/u"
        repoNoBase).updated = false := by
  have h := merge_base_failure_reports_behind gitRepoModel (coreSpec "main")
    "/u" repoNoBase (by decide) (by decide) (by decide) (by decide)
    (by decide)
  exact ⟨by decide, h.2.2.1, h.2.1⟩

/-! ## The configuration claims -/

/-- Claim C9, counterexample: when the config file is absent the resolver
does fall back to the fixed default, but emits no diagnostic at all — the
`exists()` guard in the source skips the `try` block, so only an
open/parse failure prints the warning.  This refutes "a diagnostic is
emitted to the error stream for the fallback case" at the absent-file
input. -/
theorem get_skills_branch_absent_silent :
    (get_skills_branch ConfigState.absent).1 = DEFAULT_BRANCH ∧
    (get_skills_branch ConfigState.absent).2 = [] := by
  constructor <;> rfl

/-- Claim C9 (amended): the branch resolver returns the config's
`skillsBranch` when present and non-empty; an absent config file falls
back to the default branch constant silently, while an unreadable or
unparsable config file falls back with a warning diagnostic on the error
stream; the default constant is "main". -/
theorem get_skills_branch_resolution (b e : String) (hb : b ≠ "") :
    get_skills_branch (ConfigState.parsed (some b)) = (b, []) ∧
    get_skills_branch ConfigState.absent = (DEFAULT_BRANCH, []) ∧
    get_skills_branch (ConfigState.unreadable e)
      = (DEFAULT_BRANCH, [s!"Warning: Could not read config file: {e}"]) ∧
    DEFAULT_BRANCH = "main" := by
  refine ⟨?_, rfl, rfl, rfl⟩
  simp [get_skills_branch, hb]

/-- Witness for the amended claim C9 at a concrete configuration. -/
theorem get_skills_branch_resolution_witness :
    ("develop" : String) ≠ "" ∧
    get_skills_branch (ConfigState.parsed (some "develop"))
      = ("develop", []) ∧
    get_skills_branch ConfigState.absent = (DEFAULT_BRANCH, []) :=
  ⟨by decide,
   (get_skills_branch_resolution "develop" "bad json" (by decide)).1,
   (get_skills_branch_resolution "develop" "bad json" (by decide)).2.1⟩

/-! ## The branch invariant (claim C2) -/

/-- A coherent git situation in which `git checkout` fails: an existing
clone sitting on branch "dev" (whose HEAD equals its upstream), with a
local branch "main" that cannot be checked out (e.g. a dirty working
tree).  Every command leaves the state unchanged; the state type is
`Unit` since nothing the driver observes changes. -/
def stuckCheckoutModel : GitModel Unit String where
  gitDirExists _ := true
  remoteGetUrlUpstreamOk _ := false
  fetch _ s := s
  currentBranch _ := ⟨true, "dev"⟩
  showRefHeads b _ := b == "main"
  showRefRemotes _ _ _ := false
  checkout _ s := s
  checkoutOk _ _ := false
  checkoutTrack _ _ s := s
  checkoutTrackOk _ _ _ := false
  revParseHead _ := ⟨true, "x"⟩
  revParseUpstream _ := ⟨true, "x"⟩
  mergeBase _ := ⟨true, "x"⟩
  mergeFF s := s
  mergeFFOk _ := false
  clone _ s := s
  cloneOk _ _ := false
  cloneOutput _ _ := ""
  remoteAdd _ _ s := s

/-- Claim C2, counterexample: when the checkout of an existing local
branch fails (stuck clone on "dev", desired branch "main"), the driver
completes with the clone still on "dev" and the transcript contains no
warning that the desired branch could not be reached — only the
announcement messages.  So the invariant as stated (final branch equals
the desired branch, or a warning records otherwise) fails: a failed
checkout is silent. -/
theorem branch_invariant_counterexample :
    ¬ ((stuckCheckoutModel.currentBranch
          (initialize_repository stuckCheckoutModel (coreSpec "main") "/u"
            ()).state).output = (coreSpec "main").branch ∨
       branchNotFoundMsg (coreSpec "main").branch (coreSpec "main").name
         ∈ (initialize_repository stuckCheckoutModel (coreSpec "main") "/u"
             ()).messages) := by
  decide

/-- Outcome of the branch-switching block when the HEAD query succeeds and
each checkout it issues lands on the desired branch: the block either
leaves the clone on the desired branch or records the branch-not-found
warning. -/
theorem switchBranch_result {σ α : Type} (M : GitModel σ α)
    (n b rn : String) (t : σ)
    (hsucc : (M.currentBranch t).success = true)
    (hco : M.showRefHeads b t = true →
      (M.currentBranch (M.checkout b t)).output = b)
    (htr : M.showRefHeads b t = false → M.showRefRemotes rn b t = true →
      (M.currentBranch (M.checkoutTrack b rn t)).output = b) :
    (M.currentBranch (switchBranch M n b rn t).1).output = b ∨
    branchNotFoundMsg b n ∈ (switchBranch M n b rn t).2 := by
  unfold switchBranch
  cases hg : ((M.currentBranch t).success && (M.currentBranch t).output != b)
  case false =>
    rw [hsucc] at hg
    simp only [Bool.true_and, bne_eq_false_iff_eq] at hg
    simp [hsucc, hg]
  case true =>
    simp only [hsucc, Bool.true_and] at hg
    by_cases h1 : M.showRefHeads b t = true
    · left
      simp [hsucc, hg, h1, hco h1]
    · have h1' : M.showRefHeads b t = false := by simpa using h1
      by_cases h2 : M.showRefRemotes rn b t = true
      · left
        simp [hsucc, hg, h1', h2, htr h1' h2]
      · have h2' : M.showRefRemotes rn b t = false := by simpa using h2
        right
        simp [hsucc, hg, h1', h2']

/-- Claim C2 (amended): provided the HEAD query succeeds and every
checkout the driver issues lands on the desired branch (hypotheses
`hcb`/`hco`/`htr` on the update path and `hccb`/`hcco` on the clone path,
with `hev`/`hra` recording that the evaluation and the `remote add` do not
switch branches), the driver completes with the clone on
`RepositorySpec.branch`, or the branch-not-found warning in `messages`,
or the clone-failure message in `messages`.  The unconditioned claim is
false (`branch_invariant_counterexample`): a failed checkout leaves the
clone on its prior branch with no warning recorded. -/
theorem branch_invariant_amended {σ α : Type} [DecidableEq α]
    (M : GitModel σ α) (spec : RepositorySpec) (uniRoot : String) (s : σ)
    (hcb : M.gitDirExists s = true →
      (M.currentBranch (M.fetch (resolveRemoteName M s) s)).success = true)
    (hco : M.gitDirExists s = true →
      M.showRefHeads spec.branch (M.fetch (resolveRemoteName M s) s) = true →
      (M.currentBranch (M.checkout spec.branch
        (M.fetch (resolveRemoteName M s) s))).output = spec.branch)
    (htr : M.gitDirExists s = true →
      M.showRefHeads spec.branch (M.fetch (resolveRemoteName M s) s)
        = false →
      M.showRefRemotes (resolveRemoteName M s) spec.branch
        (M.fetch (resolveRemoteName M s) s) = true →
      (M.currentBranch (M.checkoutTrack spec.branch (resolveRemoteName M s)
        (M.fetch (resolveRemoteName M s) s))).output = spec.branch)
    (hev : M.gitDirExists s = true →
      (M.currentBranch (ffEvaluate M spec.name
        (preEvalState M spec s)).state).output
        = (M.currentBranch (preEvalState M spec s)).output)
    (hccb : M.gitDirExists s = false → M.cloneOk spec.url s = true →
      (M.currentBranch (M.clone spec.url s)).success = true)
    (hcco : M.gitDirExists s = false → M.cloneOk spec.url s = true →
      (M.currentBranch (M.clone spec.url s)).output ≠ spec.branch →
      (M.currentBranch (M.checkout spec.branch
        (M.clone spec.url s))).output = spec.branch)
    (hra : M.gitDirExists s = false → M.cloneOk spec.url s = true →
      (M.currentBranch (M.remoteAdd "upstream" spec.url
        (cloneMidState M spec s))).output
        = (M.currentBranch (cloneMidState M spec s)).output) :
    (M.currentBranch
        (initialize_repository M spec uniRoot s).state).output = spec.branch ∨
    branchNotFoundMsg spec.branch spec.name
      ∈ (initialize_repository M spec uniRoot s).messages ∨
    cloneFailedMsg spec.name (M.cloneOutput spec.url s)
      ∈ (initialize_repository M spec uniRoot s).messages := by
  by_cases hex : M.gitDirExists s = true
  · rw [initialize_repository_update M spec uniRoot s hex]
    have hres := switchBranch_result M spec.name spec.branch
      (resolveRemoteName M s) (M.fetch (resolveRemoteName M s) s)
      (hcb hex) (hco hex) (htr hex)
    rcases hres with h | h
    · left
      rw [hev hex]
      exact h
    · right; left
      simp only [preEvalState]
      simp [h]
  · have hex' : M.gitDirExists s = false := by simpa using hex
    have hmid : M.cloneOk spec.url s = true →
        (M.currentBranch (cloneMidState M spec s)).output = spec.branch := by
      intro hok
      unfold cloneMidState
      cases hg : ((M.currentBranch (M.clone spec.url s)).success
          && (M.currentBranch (M.clone spec.url s)).output != spec.branch)
      case false =>
        rw [hccb hex' hok] at hg
        simp only [Bool.true_and, bne_eq_false_iff_eq] at hg
        simp [hg]
      case true =>
        simp only [hccb hex' hok, Bool.true_and] at hg
        have hne : (M.currentBranch (M.clone spec.url s)).output
            ≠ spec.branch := by simpa using hg
        simp [hccb hex' hok, hg, hcco hex' hok hne]
    unfold initialize_repository clonePath
    rw [if_neg hex]
    by_cases hok : M.cloneOk spec.url s = true
    · left
      rw [if_pos hok]
      simp only []
      by_cases hcore : (spec.name == "core") = true
      · rw [if_pos hcore, hra hex' hok]
        exact hmid hok
      · rw [if_neg hcore]
        exact hmid hok
    · right; right
      have hok' : M.cloneOk spec.url s = false := by simpa using hok
      rw [if_neg (by simp [hok'])]
      simp

/-- An existing clone sitting on "dev" where the desired branch "main"
exists locally and checkout works. -/
def repoOnDev : GitRepo :=
  ⟨true, [("dev", 7), ("main", 5)], some "dev", [("main", 5)],
    [("main", 5)], "main", false, []⟩

/-- Witness for the amended claim C2 at a concrete clone that has to
switch branches. -/
theorem branch_invariant_amended_witness :
    (gitRepoModel.currentBranch
        (initialize_repository gitRepoModel (coreSpec "main") "/u"
          repoOnDev).state).output = (coreSpec "main").branch ∨
    branchNotFoundMsg (coreSpec "main").branch (coreSpec "main").name
      ∈ (initialize_repository gitRepoModel (coreSpec "main") "/u"
          repoOnDev).messages ∨
    cloneFailedMsg (coreSpec "main").name
        (gitRepoModel.cloneOutput (coreSpec "main").url repoOnDev)
      ∈ (initialize_repository gitRepoModel (coreSpec "main") "/u"
          repoOnDev).messages :=
  branch_invariant_amended gitRepoModel (coreSpec "main") "/u" repoOnDev
    (fun _ => by decide) (fun _ h => by revert h; decide)
    (fun _ h1 h2 => by revert h1 h2; decide) (fun _ => by decide)
    (fun h => by revert h; decide) (fun h => by revert h; decide)
    (fun h => by revert h; decide)

/-! ## Idempotence of the driver on the concrete model (claim C8) -/

/-- `assoc` after `setHead`: the updated branch maps to the new tip when
it was present, other keys are untouched. -/
theorem assoc_setHead (b : String) (u : Nat) (l : List (String × Nat))
    (a : String) :
    assoc (setHead b u l) a
      = if a = b then (assoc l a).map (fun _ => u) else assoc l a := by
  induction l with
  | nil => simp [setHead, assoc]
  | cons p t ih =>
      obtain ⟨k, v⟩ := p
      have h1 : setHead b u ((k, v) :: t)
          = (k, if k = b then u else v) :: setHead b u t := by
        simp only [setHead, List.map_cons]
        split_ifs <;> rfl
      rw [h1]
      simp only [assoc]
      by_cases hka : k = a
      · by_cases hab : a = b
        · have hkb : k = b := by rw [hka, hab]
          simp [hka, hab, hkb]
        · have hkb : ¬ k = b := by rw [hka]; exact hab
          simp [hka, hab, hkb]
      · by_cases hab : a = b
        · subst hab
          simp [hka, ih]
        · simp [hka, hab, ih]

/-- Whether the fast-forward evaluation will merge: HEAD, upstream and
merge base all resolve, HEAD differs from upstream and equals the base. -/
def ffReady (r : GitRepo) : Bool :=
  match headC r, upC r, mbC r with
  | some h, some u, some m => decide (h ≠ u) && decide (m = h)
  | _, _, _ => false

/-- On the concrete model the evaluation merges exactly when `ffReady`
and its state is `mergeFFR` then, unchanged otherwise. -/
theorem ffEvaluate_gitRepo (n : String) (t : GitRepo) :
    (ffEvaluate gitRepoModel n t).updated = ffReady t ∧
    (ffEvaluate gitRepoModel n t).state
      = if ffReady t then mergeFFR t else t := by
  unfold ffEvaluate ffReady gitRepoModel
  rcases hh : headC t with _ | h
  · simp [hh]
  · rcases hu : upC t with _ | u
    · simp [hh, hu]
    · by_cases hhu : h = u
      · rcases hm : mbC t with _ | m <;> simp [hh, hu, hhu, hm]
      · rcases hm : mbC t with _ | m
        · simp [hh, hu, hhu, hm]
        · by_cases hmh : m = h
          · have hok : mergeFFOkR t = true := by
              unfold mergeFFOkR
              rw [hh, hu, hm]
              simp [hmh]
            simp [hh, hu, hhu, hm, hmh, hok]
          · have hhm : ¬ h = m := fun e => hmh e.symm
            simp [hh, hu, hhu, hm, hmh, hhm]

/-- `fetch` is the identity once the remote-tracking refs already agree
with the remote. -/
theorem fetchR_self (r : GitRepo) (h : r.remoteRefs = r.remoteBranches) :
    fetchR r = r := by
  cases r
  simp_all [fetchR]

/-- `merge --ff-only` never touches the current branch pointer, the refs,
the remote, or the merge-base table. -/
theorem mergeFFR_frame (r : GitRepo) :
    (mergeFFR r).currentBranch = r.currentBranch ∧
    (mergeFFR r).remoteRefs = r.remoteRefs ∧
    (mergeFFR r).remoteBranches = r.remoteBranches ∧
    (mergeFFR r).gitDirExists = r.gitDirExists := by
  unfold mergeFFR
  split_ifs
  · rcases hc : r.currentBranch with _ | bb <;>
      rcases hu : upC r with _ | uu <;> simp [hc, hu]
  · simp

/-- `merge --ff-only` preserves which branch names exist locally. -/
theorem mergeFFR_localIsSome (r : GitRepo) (a : String) :
    (assoc (mergeFFR r).localBranches a).isSome
      = (assoc r.localBranches a).isSome := by
  unfold mergeFFR
  split_ifs
  · rcases hc : r.currentBranch with _ | bb
    · simp
    · rcases hu : upC r with _ | uu
      · simp
      · simp only [hc, hu]
        rw [assoc_setHead]
        split_ifs <;> rcases assoc r.localBranches a <;> simp
  · rfl

/-- States on which the branch-switching block does not change the clone:
no readable branch, already on the desired branch, or the desired branch
exists neither locally nor among the remote-tracking refs. -/
def switchInert (b : String) (r : GitRepo) : Prop :=
  match r.currentBranch with
  | none => True
  | some cb => cb = b ∨ (cb ≠ b ∧ (assoc r.localBranches b).isSome = false
      ∧ (assoc r.remoteRefs b).isSome = false)

/-- On an inert state the switching block is the identity. -/
theorem switchInert_id (b n rn : String) (r : GitRepo)
    (h : switchInert b r) :
    (switchBranch gitRepoModel n b rn r).1 = r := by
  unfold switchBranch
  unfold switchInert at h
  rcases hc : r.currentBranch with _ | cb
  · simp [gitRepoModel, hc]
  · rw [hc] at h
    rcases h with h | ⟨hne, hl, hr⟩
    · simp [gitRepoModel, hc, h]
    · simp [gitRepoModel, hc, hne, hl, hr]

/-- After the switching block, the state is inert for the desired
branch: either the clone is on it, or it exists nowhere. -/
theorem switch_then_inert (n b rn : String) (r : GitRepo) :
    switchInert b (switchBranch gitRepoModel n b rn r).1 := by
  unfold switchBranch
  rcases hc : r.currentBranch with _ | cb
  · simp [gitRepoModel, hc, switchInert]
  · by_cases hcb : cb = b
    · simp [gitRepoModel, hc, hcb, switchInert]
    · by_cases h1 : (assoc r.localBranches b).isSome = true
      · simp [gitRepoModel, hc, hcb, h1, switchInert, checkoutR]
      · have h1' : (assoc r.localBranches b).isSome = false := by
          simpa using h1
        by_cases h2 : (assoc r.remoteRefs b).isSome = true
        · rcases hs : assoc r.remoteRefs b with _ | c
          · rw [hs] at h2; simp at h2
          · simp [gitRepoModel, hc, hcb, h1', switchInert, checkoutTrackR,
              hs]
        · have h2' : (assoc r.remoteRefs b).isSome = false := by
            simpa using h2
          simp [gitRepoModel, hc, hcb, h1', h2', switchInert]

/-- `merge --ff-only` preserves inertness of the switching block. -/
theorem switchInert_mergeFFR (b : String) (t : GitRepo)
    (h : switchInert b t) : switchInert b (mergeFFR t) := by
  have hf := mergeFFR_frame t
  have hl := mergeFFR_localIsSome t b
  unfold switchInert at h ⊢
  rw [hf.1]
  rcases hc : t.currentBranch with _ | cb
  · trivial
  · rw [hc] at h
    rcases h with h | ⟨h1, h2, h3⟩
    · exact Or.inl h
    · exact Or.inr ⟨h1, by rw [hl]; exact h2, by rw [hf.2.1]; exact h3⟩

/-- A successful fast-forward leaves HEAD and the tracked upstream at the
same commit (the upstream tip). -/
theorem mergeFFR_head_eq_up (t : GitRepo) (h u m : Nat)
    (hh : headC t = some h) (hu : upC t = some u) (hm : mbC t = some m)
    (hmh : m = h) :
    headC (mergeFFR t) = some u ∧ upC (mergeFFR t) = some u := by
  have hok : mergeFFOkR t = true := by
    unfold mergeFFOkR
    rw [hh, hu, hm]
    simp [hmh]
  rcases hc : t.currentBranch with _ | bb
  · rw [headC, hc] at hh
    simp at hh
  · have hl : assoc t.localBranches bb = some h := by
      rw [headC, hc] at hh
      simpa using hh
    have hr : assoc t.remoteRefs bb = some u := by
      rw [upC, hc] at hu
      simpa using hu
    unfold mergeFFR
    rw [if_pos hok, hc, hu]
    constructor
    · rw [headC]
      simp only [hc, Option.some_bind]
      rw [assoc_setHead]
      simp [hl]
    · rw [upC]
      simp [hc, hr]

/-- After the evaluation block runs, the resulting state is never again
fast-forwardable: either nothing was merged (so the evaluation's own
guard already failed) or the merge moved HEAD to the upstream tip. -/
theorem ffReady_after_eval (n : String) (t : GitRepo) :
    ffReady ((ffEvaluate gitRepoModel n t).state) = false := by
  rw [(ffEvaluate_gitRepo n t).2]
  by_cases hr : ffReady t = true
  · rw [if_pos hr]
    unfold ffReady at hr
    rcases hh : headC t with _ | h
    · rw [hh] at hr; simp at hr
    · rcases hu : upC t with _ | u
      · rw [hh, hu] at hr; simp at hr
      · rcases hm : mbC t with _ | m
        · rw [hh, hu, hm] at hr; simp at hr
        · rw [hh, hu, hm] at hr
          simp only [Bool.and_eq_true, decide_eq_true_eq] at hr
          obtain ⟨hd, hup⟩ := mergeFFR_head_eq_up t h u m hh hu hm hr.2
          unfold ffReady
          rw [hd, hup]
          rcases mbC (mergeFFR t) with _ | m2 <;> simp
  · rw [if_neg hr]
    simpa using hr

/-- The stability invariant the first run establishes: the
remote-tracking refs agree with the remote, and whatever the switching
block does next, the result is not fast-forwardable. -/
def secondRunStable (b : String) (r : GitRepo) : Prop :=
  r.remoteRefs = r.remoteBranches ∧
  ∀ n rn, ffReady (switchBranch gitRepoModel n b rn r).1 = false

/-- A run on an existing stable clone reports `updated = false`. -/
theorem second_run_no_update (spec : RepositorySpec) (uniRoot : String)
    (r : GitRepo) (hex : r.gitDirExists = true)
    (hst : secondRunStable spec.branch r) :
    (initialize_repository gitRepoModel spec uniRoot r).updated = false := by
  rw [initialize_repository_update gitRepoModel spec uniRoot r hex]
  simp only []
  rw [(ffEvaluate_gitRepo spec.name (preEvalState gitRepoModel spec r)).1]
  unfold preEvalState
  have hfetch : gitRepoModel.fetch (resolveRemoteName gitRepoModel r) r
      = r := fetchR_self r hst.1
  rw [hfetch]
  exact hst.2 spec.name (resolveRemoteName gitRepoModel r)

/-- The clone path never reports `updated = true`. -/
theorem clone_path_no_update (spec : RepositorySpec) (uniRoot : String)
    (r : GitRepo) (hex : r.gitDirExists = false) :
    (initialize_repository gitRepoModel spec uniRoot r).updated = false := by
  unfold initialize_repository
  rw [if_neg (by simp [gitRepoModel, hex])]
  unfold clonePath
  by_cases hok : gitRepoModel.cloneOk spec.url r = true <;> simp [hok]

/-- `checkout` never touches the refs, the remote, or the cache flag. -/
theorem checkoutR_frame (b : String) (r : GitRepo) :
    (checkoutR b r).remoteRefs = r.remoteRefs ∧
    (checkoutR b r).remoteBranches = r.remoteBranches ∧
    (checkoutR b r).gitDirExists = r.gitDirExists := by
  unfold checkoutR
  split_ifs <;> simp

/-- `checkout -b` never touches the refs, the remote, or the cache flag. -/
theorem checkoutTrackR_frame (b : String) (r : GitRepo) :
    (checkoutTrackR b r).remoteRefs = r.remoteRefs ∧
    (checkoutTrackR b r).remoteBranches = r.remoteBranches ∧
    (checkoutTrackR b r).gitDirExists = r.gitDirExists := by
  unfold checkoutTrackR
  rcases assoc r.remoteRefs b <;> simp

/-- The switching block never touches the refs or the remote. -/
theorem switchBranch_frame (n b rn : String) (r : GitRepo) :
    (switchBranch gitRepoModel n b rn r).1.remoteRefs = r.remoteRefs ∧
    (switchBranch gitRepoModel n b rn r).1.remoteBranches
      = r.remoteBranches := by
  simp only [switchBranch]
  by_cases hg : ((gitRepoModel.currentBranch r).success
      && (gitRepoModel.currentBranch r).output != b) = true
  · rw [if_pos hg]
    by_cases h1 : gitRepoModel.showRefHeads b r = true
    · rw [if_pos h1]
      exact ⟨(checkoutR_frame b r).1, (checkoutR_frame b r).2.1⟩
    · rw [if_neg h1]
      by_cases h2 : gitRepoModel.showRefRemotes rn b r = true
      · rw [if_pos h2]
        exact ⟨(checkoutTrackR_frame b r).1, (checkoutTrackR_frame b r).2.1⟩
      · rw [if_neg h2]
        exact ⟨rfl, rfl⟩
  · rw [if_neg hg]
    exact ⟨rfl, rfl⟩

/-- The evaluation block never touches the refs or the remote. -/
theorem ffEvaluate_frame (n : String) (t : GitRepo) :
    (ffEvaluate gitRepoModel n t).state.remoteRefs = t.remoteRefs ∧
    (ffEvaluate gitRepoModel n t).state.remoteBranches
      = t.remoteBranches := by
  rw [(ffEvaluate_gitRepo n t).2]
  split_ifs
  · exact ⟨(mergeFFR_frame t).2.1, (mergeFFR_frame t).2.2.1⟩
  · exact ⟨rfl, rfl⟩

/-- The evaluation block preserves inertness of the switching block. -/
theorem switchInert_eval (b n : String) (t : GitRepo)
    (h : switchInert b t) :
    switchInert b ((ffEvaluate gitRepoModel n t).state) := by
  rw [(ffEvaluate_gitRepo n t).2]
  split_ifs
  · exact switchInert_mergeFFR b t h
  · exact h

/-- A clone with a single local branch sitting at the same commit as its
remote-tracking ref is stable: whatever branch the next run asks for, the
switching block leaves nothing to fast-forward. -/
theorem stable_single_branch (b : String) (r' : GitRepo) (cb : String)
    (tip : Nat) (hcur : r'.currentBranch = some cb)
    (hloc : r'.localBranches = [(cb, tip)])
    (hup : assoc r'.remoteRefs cb = some tip) :
    ∀ n rn, ffReady (switchBranch gitRepoModel n b rn r').1 = false := by
  intro n rn
  have hhead : headC r' = some tip := by
    rw [headC, hcur]
    simp [hloc, assoc]
  have hupc : upC r' = some tip := by
    rw [upC, hcur]
    simp [hup]
  have hready : ffReady r' = false := by
    unfold ffReady
    rw [hhead, hupc]
    rcases mbC r' with _ | m <;> simp
  by_cases hcb : cb = b
  · rw [switchInert_id b n rn r'
      (by unfold switchInert; rw [hcur]; exact Or.inl hcb)]
    exact hready
  · have hlocb : (assoc r'.localBranches b).isSome = false := by
      rw [hloc]
      simp [assoc, hcb]
    by_cases h2 : (assoc r'.remoteRefs b).isSome = true
    · rcases hs : assoc r'.remoteRefs b with _ | c0
      · rw [hs] at h2
        simp at h2
      · have hsw : (switchBranch gitRepoModel n b rn r').1
            = checkoutTrackR b r' := by
          simp only [switchBranch]
          simp [gitRepoModel, hcur, hcb, hlocb, h2]
        rw [hsw]
        have ht1 : headC (checkoutTrackR b r') = some c0 := by
          unfold checkoutTrackR
          rw [hs, headC]
          simp [assoc]
        have ht2 : upC (checkoutTrackR b r') = some c0 := by
          unfold checkoutTrackR
          rw [hs, upC]
          simp [hs]
        unfold ffReady
        rw [ht1, ht2]
        rcases mbC (checkoutTrackR b r') with _ | m <;> simp
    · have h2' : (assoc r'.remoteRefs b).isSome = false := by simpa using h2
      rw [switchInert_id b n rn r'
        (by unfold switchInert; rw [hcur]; exact Or.inr ⟨hcb, hlocb, h2'⟩)]
      exact hready

/-- After a successful clone, the clone path's best-effort checkout of the
desired branch is a no-op on the concrete model: the fresh clone has only
the remote's default branch locally. -/
theorem cloneMidState_gitRepo (spec : RepositorySpec) (r : GitRepo)
    (tip : Nat) (hs : assoc r.remoteBranches r.remoteHead = some tip) :
    cloneMidState gitRepoModel spec r = cloneR r := by
  have hc : cloneR r
      = { r with gitDirExists := true,
                 localBranches := [(r.remoteHead, tip)],
                 currentBranch := some r.remoteHead,
                 remoteRefs := r.remoteBranches,
                 hasUpstream := false } := by
    unfold cloneR
    rw [hs]
  by_cases hrb : r.remoteHead = spec.branch
  · simp [cloneMidState, gitRepoModel, hc, hrb]
  · have hnone : assoc (cloneR r).localBranches spec.branch = none := by
      rw [hc]
      simp [assoc, hrb]
    simp [cloneMidState, gitRepoModel, hc, hrb, checkoutR, hnone, assoc]

/-- The first run leaves the clone in a stable state: a second run's
switching block leaves nothing to fast-forward, and the tracking refs
agree with the remote. -/
theorem first_run_stable (spec : RepositorySpec) (uniRoot : String)
    (r : GitRepo)
    (hgd : (initialize_repository gitRepoModel spec uniRoot
        r).state.gitDirExists = true) :
    secondRunStable spec.branch
      (initialize_repository gitRepoModel spec uniRoot r).state := by
  by_cases hex : r.gitDirExists = true
  · rw [initialize_repository_update gitRepoModel spec uniRoot r hex]
    simp only []
    constructor
    · have h1 : (preEvalState gitRepoModel spec r).remoteRefs
          = (preEvalState gitRepoModel spec r).remoteBranches := by
        unfold preEvalState
        have hsf := switchBranch_frame spec.name spec.branch
          (resolveRemoteName gitRepoModel r)
          (gitRepoModel.fetch (resolveRemoteName gitRepoModel r) r)
        rw [hsf.1, hsf.2]
        rfl
      have hef := ffEvaluate_frame spec.name (preEvalState gitRepoModel spec r)
      rw [hef.1, hef.2]
      exact h1
    · intro n rn
      have hin : switchInert spec.branch
          ((ffEvaluate gitRepoModel spec.name
            (preEvalState gitRepoModel spec r)).state) := by
        apply switchInert_eval
        unfold preEvalState
        exact switch_then_inert spec.name spec.branch
          (resolveRemoteName gitRepoModel r)
          (gitRepoModel.fetch (resolveRemoteName gitRepoModel r) r)
      rw [switchInert_id spec.branch n rn _ hin]
      exact ffReady_after_eval spec.name _
  · have hex' : r.gitDirExists = false := by simpa using hex
    unfold initialize_repository at hgd ⊢
    rw [if_neg (by simp [gitRepoModel, hex'])] at hgd ⊢
    unfold clonePath at hgd ⊢
    by_cases hok : gitRepoModel.cloneOk spec.url r = true
    · rcases hs : assoc r.remoteBranches r.remoteHead with _ | tip
      · have hff : cloneOkR r = false := by
          rw [cloneOkR, hs]
          rfl
        rw [show gitRepoModel.cloneOk spec.url r = cloneOkR r from rfl,
          hff] at hok
        simp at hok
      · have hc : cloneR r
            = { r with gitDirExists := true,
                       localBranches := [(r.remoteHead, tip)],
                       currentBranch := some r.remoteHead,
                       remoteRefs := r.remoteBranches,
                       hasUpstream := false } := by
          unfold cloneR
          rw [hs]
        have hmid := cloneMidState_gitRepo spec r tip hs
        simp only [hok, if_pos, if_true]
        have hst : ∀ r2 : GitRepo, r2.currentBranch = some r.remoteHead →
            r2.localBranches = [(r.remoteHead, tip)] →
            r2.remoteRefs = r.remoteBranches →
            r2.remoteBranches = r.remoteBranches →
            secondRunStable spec.branch r2 := by
          intro r2 hcur hloc hrr hrb
          refine ⟨by rw [hrr, hrb], ?_⟩
          exact stable_single_branch spec.branch r2 r.remoteHead tip hcur
            hloc (by rw [hrr]; exact hs)
        by_cases hcore : (spec.name == "core") = true
        · rw [if_pos hcore]
          refine hst _ ?_ ?_ ?_ ?_ <;> rw [hmid, hc] <;> rfl
        · rw [if_neg hcore]
          refine hst _ ?_ ?_ ?_ ?_ <;> rw [hmid, hc]
    · have hco : cloneOkR r = false := by
        have := hok
        rw [show gitRepoModel.cloneOk spec.url r = cloneOkR r from rfl]
          at this
        simpa using this
      have hcr : cloneR r = r := by
        unfold cloneR
        rcases hs : assoc r.remoteBranches r.remoteHead with _ | tip
        · rfl
        · rw [cloneOkR, hs] at hco
          simp at hco
      rw [if_neg hok] at hgd
      simp only [] at hgd
      rw [show gitRepoModel.clone spec.url r = cloneR r from rfl, hcr]
        at hgd
      rw [hgd] at hex'
      simp at hex'

/-- Claim C8: idempotence of synchronization on the concrete git model —
running the driver twice in succession (the remote, carried inside the
state, does not change in between) yields `updated = false` on the second
run: after the first run the clone is either already at the upstream tip,
was fast-forwarded onto it, diverged (and is left diverged), or has
nothing to compare, and in each case the second evaluation takes a
non-updating branch. -/
theorem initialize_repository_idempotent (spec : RepositorySpec)
    (uniRoot : String) (r : GitRepo) :
    (initialize_repository gitRepoModel spec uniRoot
      ((initialize_repository gitRepoModel spec uniRoot r).state)).updated
      = false := by
  by_cases h : (initialize_repository gitRepoModel spec uniRoot
      r).state.gitDirExists = true
  · exact second_run_no_update spec uniRoot _ h
      (first_run_stable spec uniRoot r h)
  · exact clone_path_no_update spec uniRoot _ (by simpa using h)
